import Mathlib

/-!
Shallow embedding of the s3pusher relay (src/s3pusher.py) and verification of
its specification.

The embedding mirrors the Python source line by line:

* `wait_for_stable_file` models `ThePusher.wait_for_stable_file`.  Time is
  discrete: the i-th execution of the loop body happens after i sleeps of
  `STABLE_FILE_DELAY_SECONDS` (= 1) seconds, so the while condition
  `time.time() - start_time < timeout` holds exactly while
  `i * STABLE_FILE_DELAY_SECONDS < timeout`, i.e. while `i < timeout`.
* `upload_file_to_s3` models `ThePusher.upload_file_to_s3`; every fallible
  external call (`stat`, `boto3.client`, `open`, `upload_fileobj`, `unlink`)
  is a field of an `S3World` record giving that call's outcome, and the
  function returns the observable trace of one invocation (how many upload
  calls were issued, how long the handler slept, whether the file was
  deleted, and the outcome).  An uncaught Python exception is an
  `Except.error`.
* `upload_directory_to_s3` models `ThePusher.upload_directory_to_s3`
  (the directory sweep over `directory.glob("*")`).
* `get_s3_object_key` models the static method `ThePusher.get_s3_object_key`;
  the wall-clock time and the freshly drawn uuid4 token are parameters.
-/

namespace S3Pusher

/-- Source constant `STABLE_FILE_DELAY_SECONDS = 1` (the poll interval of the
stability loop, in seconds). -/
def STABLE_FILE_DELAY_SECONDS : Nat := 1

/-- Source constant `EXCEPTION_DELAY_SECONDS = 60` (the post-failure backoff,
in seconds). -/
def EXCEPTION_DELAY_SECONDS : Nat := 60

/-- Python exceptions, distinguished exactly as far as the source's handlers
distinguish them: the stability loop catches `FileNotFoundError` only, while
the upload try-block catches every `Exception`.  `permissionError` stands for
any stat failure other than `FileNotFoundError` (e.g. `PermissionError`);
`otherError` stands for any other exception (e.g. a boto3 error). -/
inductive PyError where
  | fileNotFoundError
  | permissionError
  | otherError
deriving DecidableEq, Repr

/-- A `pathlib.Path`, modelled by its parsed non-anchor components
(`Path.parts`).  A `Path` object is always truthy in Python, hence the
source's `if filename:` test is modelled by `Option.isSome` on an
`Option PyPath`. -/
structure PyPath where
  components : List String
deriving DecidableEq, Repr

/-- `pathlib.Path.name`: the final path component, or the empty string when
there is none. -/
def PyPath.name (p : PyPath) : String :=
  (p.components.getLast?).getD ""

/-- The fields of `datetime.now(tz=UTC)` that `get_s3_object_key` reads. -/
structure PyDateTime where
  year : Nat
  month : Nat
  day : Nat
  hour : Nat
  minute : Nat
  second : Nat
deriving DecidableEq, Repr

/-- Python's format `f"{n:04}"` / `f"{n:02}"` for a nonnegative integer n:
decimal digits, left-padded with zeros to the requested width (wider numbers
are printed in full). -/
def padZero (width : Nat) (n : Nat) : String :=
  let s := toString n
  if s.length < width then String.mk (List.replicate (width - s.length) '0') ++ s
  else s

/-- `ThePusher.get_s3_object_key(filename=None, hostname=None)`, with the
wall-clock instant `dt` (from `datetime.now`) and the fresh uuid4 token
`uuidTok` (from `str(uuid.uuid4())`) made explicit parameters.

Mirrors the source: a `fields_dict` of key/optional-value pairs in insertion
order (year, month, day, hour, minute, second, then `hostname` only when the
hostname argument is truthy — i.e. neither `None` nor the empty string —
then `uuid`), filtered by `if v is not None`, rendered as `k=v`, with the
filename's base name appended when a filename is given, all joined by `/`. -/
def get_s3_object_key (filename : Option PyPath) (hostname : Option String)
    (dt : PyDateTime) (uuidTok : String) : String :=
  let fields_dict : List (String × Option String) :=
    [("year", some (padZero 4 dt.year)),
     ("month", some (padZero 2 dt.month)),
     ("day", some (padZero 2 dt.day)),
     ("hour", some (padZero 2 dt.hour)),
     ("minute", some (padZero 2 dt.minute)),
     ("second", some (padZero 2 dt.second))]
    ++ (match hostname with
        | some h => if h = "" then [] else [("hostname", some h)]
        | none => [])
    ++ [("uuid", some uuidTok)]
  let fields_list : List String :=
    fields_dict.filterMap (fun kv => kv.2.map (fun v => kv.1 ++ "=" ++ v))
  let fields_list : List String :=
    match filename with
    | some f => fields_list ++ [f.name]
    | none => fields_list
  String.intercalate "/" fields_list

/-- The segment list the specification prescribes for the object key (§4.1 of
the spec): the six date/time `key=value` segments in fixed order, then a
`hostname=H` segment exactly when H is supplied and non-empty, then the
random-token segment.  (The original filename's base name, when present, is
appended after these by the caller of this definition.)  This definition is
written from the specification's words, to be compared against
`get_s3_object_key`, which is written from the source. -/
def spec_key_segments (hostname : Option String) (dt : PyDateTime)
    (uuidTok : String) : List String :=
  ["year=" ++ padZero 4 dt.year,
   "month=" ++ padZero 2 dt.month,
   "day=" ++ padZero 2 dt.day,
   "hour=" ++ padZero 2 dt.hour,
   "minute=" ++ padZero 2 dt.minute,
   "second=" ++ padZero 2 dt.second]
  ++ (match hostname with
      | some h => if h = "" then [] else ["hostname=" ++ h]
      | none => [])
  ++ ["uuid=" ++ uuidTok]

/-- The while loop of `wait_for_stable_file`.  Iteration `i` polls `stat i`
(the result of `filename.stat().st_size` at the i-th poll); `last` holds
`last_size` (initially the sentinel -1).  With
`STABLE_FILE_DELAY_SECONDS = 1` the loop condition
(elapsed time `i * STABLE_FILE_DELAY_SECONDS < timeout`) lets the body run
exactly while `i < timeout`, so `remaining = timeout - i` counts the polls
still permitted.  A stat failure other than `FileNotFoundError` is uncaught
and propagates as `Except.error`. -/
def wait_loop (stat : Nat → Except PyError Nat) (i : Nat) (last : Int) :
    Nat → Except PyError Bool
  | 0 => .ok false
  | remaining + 1 =>
    match stat i with
    | .ok n => if (n : Int) = last then .ok true
               else wait_loop stat (i + 1) (n : Int) remaining
    | .error .fileNotFoundError => .ok false
    | .error e => .error e

/-- `ThePusher.wait_for_stable_file(filename, timeout)`: the stat results over
time are abstracted as the function `stat`. -/
def wait_for_stable_file (stat : Nat → Except PyError Nat) (timeout : Nat) :
    Except PyError Bool :=
  wait_loop stat 0 (-1) timeout

/-- The outcome of one `upload_file_to_s3` invocation that did not raise:
the early return on a non-stable file, the success path (upload then delete),
or the exception handler's path.  The source has no other outcome — in
particular it has no skip path. -/
inductive UploadOutcome where
  | notStable
  | success
  | failed
deriving DecidableEq, Repr

/-- The observable trace of one `upload_file_to_s3` invocation:
`uploadCalls` counts invocations of `s3_client.upload_fileobj`,
`sleptSeconds` is the total backoff sleep executed, `deleted` records whether
`filename.unlink()` completed, and `outcome` is the path taken. -/
structure UploadTrace where
  uploadCalls : Nat
  sleptSeconds : Nat
  deleted : Bool
  outcome : UploadOutcome
deriving DecidableEq, Repr

/-- The behaviour of the external world during one `upload_file_to_s3`
invocation: the result of each fallible call the source makes, plus the
wall-clock instant and uuid4 token drawn during key generation.  `stat i` is
the result of the i-th `filename.stat().st_size` poll.  `client1` and
`client2` are the two consecutive `boto3.client("s3")` calls (lines 54 and
58 of the source), `openFile` is `open(filename, "rb")`, `uploadFileobj b k`
is `upload_fileobj(fp, b, k)` for bucket `b` and object key `k`, and
`unlink` is `filename.unlink()`. -/
structure S3World where
  stat : Nat → Except PyError Nat
  now : PyDateTime
  uuidTok : String
  client1 : Except PyError Unit
  client2 : Except PyError Unit
  openFile : Except PyError Unit
  uploadFileobj : Option String → String → Except PyError Unit
  unlink : Except PyError Unit

/-- `ThePusher.upload_file_to_s3(filename)` for a pusher constructed with the
given `bucket` and `hostname`.  Mirrors the source: first
`wait_for_stable_file(filename)` (outside any try-block, with its default
`timeout=60`; an uncaught exception from it propagates), early return when it
yields false; then the try-block: build a client, generate the object key,
build a client again, open the file, call `upload_fileobj` with the
configured bucket, and `unlink` the file; any exception inside the try-block
is caught and answered with a `time.sleep(EXCEPTION_DELAY_SECONDS)`. -/
def upload_file_to_s3 (bucket hostname : Option String) (filename : PyPath)
    (w : S3World) : Except PyError UploadTrace :=
  match wait_for_stable_file w.stat 60 with
  | .error e => .error e
  | .ok false => .ok ⟨0, 0, false, .notStable⟩
  | .ok true =>
    match w.client1 with
    | .error _ => .ok ⟨0, EXCEPTION_DELAY_SECONDS, false, .failed⟩
    | .ok _ =>
      match w.client2 with
      | .error _ => .ok ⟨0, EXCEPTION_DELAY_SECONDS, false, .failed⟩
      | .ok _ =>
        match w.openFile with
        | .error _ => .ok ⟨0, EXCEPTION_DELAY_SECONDS, false, .failed⟩
        | .ok _ =>
          match w.uploadFileobj bucket
              (get_s3_object_key (some filename) hostname w.now w.uuidTok) with
          | .error _ => .ok ⟨1, EXCEPTION_DELAY_SECONDS, false, .failed⟩
          | .ok _ =>
            match w.unlink with
            | .error _ => .ok ⟨1, EXCEPTION_DELAY_SECONDS, false, .failed⟩
            | .ok _ => .ok ⟨1, 0, true, .success⟩

/-- `ThePusher.upload_directory_to_s3(directory)`: iterate over the entries
yielded by `directory.glob("*")` (which, unlike the `glob` module, does not
exclude names beginning with a dot — it yields every direct entry) and call
`upload_file_to_s3` on each entry for which `is_file()` holds.  An uncaught
exception from `upload_file_to_s3` aborts the sweep and propagates.  The
result lists, in order, each processed entry with its trace. -/
def upload_directory_to_s3 (bucket hostname : Option String)
    (entries : List PyPath) (isFile : PyPath → Bool)
    (worldOf : PyPath → S3World) :
    Except PyError (List (PyPath × UploadTrace)) :=
  match entries with
  | [] => .ok []
  | e :: rest =>
    if isFile e then
      match upload_file_to_s3 bucket hostname e (worldOf e) with
      | .error err => .error err
      | .ok t =>
        match upload_directory_to_s3 bucket hostname rest isFile worldOf with
        | .error err => .error err
        | .ok ts => .ok ((e, t) :: ts)
    else
      upload_directory_to_s3 bucket hostname rest isFile worldOf

/-- A stat history that grows by `inc` bytes at each of the first `G` polls
and is constant afterwards, as in the spec's growing-file scenario. -/
def growingStat (s0 inc G : Nat) : Nat → Except PyError Nat :=
  fun i => .ok (s0 + (min i G) * inc)

/-- Concrete example paths for witnesses. -/
def pathA : PyPath := ⟨["data", "a.log"]⟩

def pathB : PyPath := ⟨["data", "b.log"]⟩

def pathC : PyPath := ⟨["data", "c.log"]⟩

/-- A world with a file that is stable at 100 bytes and a well-behaved
filesystem and store.  `uploadFileobj` models boto3's client-side parameter
validation: a call with `Bucket=None` raises a `ParamValidationError` before
any transfer is made, while a call with a string bucket succeeds. -/
def stdWorld : S3World :=
  ⟨fun _ => .ok 100,
   ⟨2024, 1, 15, 10, 30, 0⟩,
   "f81d4fae-7dec-11d0-a765-00a0c91e6bf6",
   .ok (), .ok (), .ok (),
   fun b _ => match b with
     | some _ => .ok ()
     | none => .error .otherError,
   .ok ()⟩

/-- Like `stdWorld` but the destination store is unavailable: every
`upload_fileobj` call raises. -/
def uploadFailWorld : S3World :=
  ⟨fun _ => .ok 100,
   ⟨2024, 1, 15, 10, 30, 0⟩,
   "f81d4fae-7dec-11d0-a765-00a0c91e6bf6",
   .ok (), .ok (), .ok (),
   fun _ _ => .error .otherError,
   .ok ()⟩

/-- A world where every `stat` call raises `PermissionError` — a stat failure
that is not a `FileNotFoundError`. -/
def permWorld : S3World :=
  ⟨fun _ => .error .permissionError,
   ⟨2024, 1, 15, 10, 30, 0⟩,
   "f81d4fae-7dec-11d0-a765-00a0c91e6bf6",
   .ok (), .ok (), .ok (),
   fun _ _ => .ok (),
   .ok ()⟩

/-- A stat history for the vanishing-file scenario: sizes 5 then 7 are seen,
then the file disappears (`FileNotFoundError`) at the third poll. -/
def vanishStat : Nat → Except PyError Nat :=
  fun j =>
    if j = 0 then .ok 5
    else if j = 1 then .ok 7
    else if j = 2 then .error .fileNotFoundError
    else .ok 7

/-- C5: for every time T, hostname H and filename F, the generated object key
equals the fixed-format string of key=value segments joined by '/' in the
exact order year (4-digit zero-padded), month, day, hour, minute, second
(2-digit zero-padded), then hostname=H exactly when H is non-empty (one such
segment), then the random token segment, and finally F's base name as the
last segment. -/
theorem get_s3_object_key_format (f : PyPath) (host : Option String)
    (dt : PyDateTime) (tok : String) :
    get_s3_object_key (some f) host dt tok =
      String.intercalate "/" (spec_key_segments host dt tok ++ [f.name]) := by
  cases host with
  | none => rfl
  | some h =>
    by_cases hh : h = ""
    · subst hh; rfl
    · simp [get_s3_object_key, spec_key_segments, hh]

/-- C10: for every call to get_s3_object_key with filename absent, the
returned key consists of exactly the field segments and ends with the
random-token segment uuid=tok, with no filename segment after it. -/
theorem get_s3_object_key_no_filename (host : Option String)
    (dt : PyDateTime) (tok : String) :
    get_s3_object_key none host dt tok =
      String.intercalate "/" (spec_key_segments host dt tok) ∧
    (spec_key_segments host dt tok).getLast? = some ("uuid=" ++ tok) ∧
    ∃ p, get_s3_object_key none host dt tok = p ++ ("uuid=" ++ tok) := by
  refine ⟨?_, ?_, ?_⟩
  · cases host with
    | none => rfl
    | some h =>
      by_cases hh : h = ""
      · subst hh; rfl
      · simp [get_s3_object_key, spec_key_segments, hh]
  · cases host with
    | none => rfl
    | some h =>
      by_cases hh : h = ""
      · subst hh; rfl
      · simp [spec_key_segments, hh]
  · cases host with
    | none => exact ⟨_, rfl⟩
    | some h =>
      by_cases hh : h = ""
      · subst hh; exact ⟨_, rfl⟩
      · simp only [get_s3_object_key, hh]
        exact ⟨_, rfl⟩

/-- If the loop answers true, either the current poll matched the incoming
last size, or two consecutive later polls returned equal sizes. -/
theorem wait_loop_ok_true (stat : Nat → Except PyError Nat) :
    ∀ (remaining i : Nat) (last : Int),
      wait_loop stat i last remaining = .ok true →
      (∃ n, stat i = .ok n ∧ (n : Int) = last) ∨
      ∃ j, i < j ∧ ∃ n, stat (j - 1) = .ok n ∧ stat j = .ok n := by
  intro remaining
  induction remaining with
  | zero => intro i last h; simp [wait_loop] at h
  | succ r ih =>
    intro i last h
    rw [wait_loop] at h
    cases hstat : stat i with
    | ok n =>
      simp only [hstat] at h
      by_cases hn : (n : Int) = last
      · exact Or.inl ⟨n, rfl, hn⟩
      · rw [if_neg hn] at h
        rcases ih (i + 1) (n : Int) h with ⟨m, hm, hmn⟩ | ⟨j, hj, hx⟩
        · right
          refine ⟨i + 1, Nat.lt_succ_self i, n, ?_, ?_⟩
          · simpa using hstat
          · obtain rfl : m = n := by exact_mod_cast hmn
            exact hm
        · exact Or.inr ⟨j, by omega, hx⟩
    | error e =>
      cases e <;> simp [hstat] at h

/-- C6: wait_for_stable_file never declares stability on the very first size
observation — a true answer requires two consecutive equal observations, the
first of which is at poll index at least 1 (one full poll interval after the
baseline) — and on a file whose size is constant across the first poll
interval and which is not deleted it returns true. -/
theorem wait_for_stable_file_needs_second_poll
    (stat : Nat → Except PyError Nat) (timeout c : Nat) :
    (wait_for_stable_file stat timeout = .ok true →
      ∃ j, 1 ≤ j ∧ ∃ n, stat (j - 1) = .ok n ∧ stat j = .ok n) ∧
    (stat 0 = .ok c → stat 1 = .ok c → 2 ≤ timeout →
      wait_for_stable_file stat timeout = .ok true) := by
  constructor
  · intro h
    rcases wait_loop_ok_true stat timeout 0 (-1) h with ⟨n, _, hn⟩ | ⟨j, hj, hx⟩
    · exfalso; omega
    · exact ⟨j, by omega, hx⟩
  · intro h0 h1 ht
    obtain ⟨t, rfl⟩ : ∃ t, timeout = t + 2 := ⟨timeout - 2, by omega⟩
    have hne : ¬((c : Int) = -1) := by omega
    rw [wait_for_stable_file, wait_loop]
    simp only [h0]
    rw [if_neg hne, wait_loop]
    simp [h1]

/-- A closed instance of the second part of C6: a file constant at 100 bytes
is declared stable within the default timeout. -/
theorem wait_for_stable_file_needs_second_poll_witness :
    wait_for_stable_file (fun _ => (.ok 100 : Except PyError Nat)) 60 =
      .ok true :=
  (wait_for_stable_file_needs_second_poll (fun _ => .ok 100) 60 100).2
    rfl rfl (by omega)

/-- If, among the polls the loop can still make, each size differs from the
previous one, the loop exhausts its time budget and answers false. -/
theorem wait_loop_no_repeat (stat : Nat → Except PyError Nat) (f : Nat → Nat)
    (hstat : ∀ j, stat j = .ok (f j)) :
    ∀ (remaining i : Nat) (last : Int), ((f i : Int) ≠ last) →
      (∀ j, i ≤ j → j + 1 < i + remaining → f (j + 1) ≠ f j) →
      wait_loop stat i last remaining = .ok false := by
  intro remaining
  induction remaining with
  | zero => intro i last _ _; rfl
  | succ r ih =>
    intro i last hlast hbound
    rw [wait_loop]
    simp only [hstat i]
    rw [if_neg hlast]
    cases r with
    | zero => rfl
    | succ r2 =>
      apply ih (i + 1) (f i)
      · have hne : f (i + 1) ≠ f i := hbound i le_rfl (by omega)
        intro hc
        exact hne (by exact_mod_cast hc)
      · intro j hj hjr
        exact hbound j (by omega) (by omega)

/-- C7: with only ever-changing sizes the stability wait times out with
false; in particular a file growing by a fixed increment at every poll is
reported unstable when the timeout is at most the growth duration, and
stable once growth stops within a sufficiently larger timeout. -/
theorem wait_for_stable_file_timeout (stat : Nat → Except PyError Nat)
    (f : Nat → Nat) (timeout s0 inc G : Nat) :
    ((∀ j, stat j = .ok (f j)) → (∀ j, f (j + 1) ≠ f j) →
      wait_for_stable_file stat timeout = .ok false) ∧
    (1 ≤ inc → timeout ≤ G →
      wait_for_stable_file (growingStat s0 inc G) timeout = .ok false) ∧
    (1 ≤ inc → G + 2 ≤ timeout →
      wait_for_stable_file (growingStat s0 inc G) timeout = .ok true) := by
  refine ⟨?_, ?_, ?_⟩
  · intro hstat hne
    apply wait_loop_no_repeat stat f hstat
    · omega
    · intro j _ _; exact hne j
  · intro hinc htime
    apply wait_loop_no_repeat (growingStat s0 inc G)
        (fun i => s0 + (min i G) * inc) (fun _ => rfl)
    · omega
    · intro j _ hjb
      have h1 : min (j + 1) G = j + 1 := by omega
      have h2 : min j G = j := by omega
      have h3 : (j + 1) * inc = j * inc + inc := Nat.succ_mul j inc
      simp only [h1, h2]
      omega
  · intro hinc htime
    obtain ⟨t, rfl⟩ : ∃ t, timeout = G + 2 + t := ⟨timeout - (G + 2), by omega⟩
    have key : ∀ (remaining i : Nat) (last : Int),
        (i = 0 ∧ last = -1 ∨ 1 ≤ i ∧ last = (s0 + (min (i - 1) G) * inc : Nat)) →
        i ≤ G + 1 → G + 2 ≤ i + remaining →
        wait_loop (growingStat s0 inc G) i last remaining = .ok true := by
      intro remaining
      induction remaining with
      | zero => intro i last _ _ _; omega
      | succ r ih =>
        intro i last hinv hiK hbudget
        rw [wait_loop]
        show (if ((s0 + (min i G) * inc : Nat) : Int) = last then
            Except.ok true
          else wait_loop (growingStat s0 inc G) (i + 1)
            ((s0 + (min i G) * inc : Nat) : Int) r) = .ok true
        by_cases hi : i = G + 1
        · subst hi
          rcases hinv with ⟨h0, _⟩ | ⟨_, hlast⟩
          · omega
          · have hmin : min (G + 1) G = G := by omega
            have hmin2 : min (G + 1 - 1) G = G := by omega
            rw [if_pos]
            rw [hlast, hmin, hmin2]
        · have hiG : i ≤ G := by omega
          have hne : ¬(((s0 + (min i G) * inc : Nat) : Int) = last) := by
            rcases hinv with ⟨_, hlast⟩ | ⟨hi1, hlast⟩
            · rw [hlast]; omega
            · obtain ⟨m, rfl⟩ : ∃ m, i = m + 1 := ⟨i - 1, by omega⟩
              rw [hlast]
              have e1 : min (m + 1) G = m + 1 := by omega
              have e2 : min (m + 1 - 1) G = m := by omega
              have e4 : (m + 1) * inc = m * inc + inc := Nat.succ_mul m inc
              rw [e1, e2]
              intro hc
              have hc2 : s0 + (m + 1) * inc = s0 + m * inc := by exact_mod_cast hc
              omega
          rw [if_neg hne]
          apply ih (i + 1)
          · right
            constructor
            · omega
            · simp
          · omega
          · omega
    apply key (G + 2 + t) 0 (-1)
    · left; exact ⟨rfl, rfl⟩
    · omega
    · omega

/-- A closed instance of C7's growing-file scenario: with increment 1 and
growth lasting 5 polls, a timeout of 3 yields false and a timeout of 10
yields true. -/
theorem wait_for_stable_file_timeout_witness :
    wait_for_stable_file (growingStat 0 1 5) 3 = .ok false ∧
    wait_for_stable_file (growingStat 0 1 5) 10 = .ok true :=
  ⟨(wait_for_stable_file_timeout (growingStat 0 1 5) (fun _ => 0) 3 0 1 5).2.1
      (by omega) (by omega),
   (wait_for_stable_file_timeout (growingStat 0 1 5) (fun _ => 0) 10 0 1 5).2.2
      (by omega) (by omega)⟩

/-- If the loop, after seeing pairwise-changing sizes, reaches a poll whose
stat raises FileNotFoundError while its time budget still allows that poll,
it answers false. -/
theorem wait_loop_not_found (stat : Nat → Except PyError Nat) (f : Nat → Nat)
    (k : Nat) (hstat : ∀ j, j < k → stat j = .ok (f j))
    (hnf : stat k = .error .fileNotFoundError)
    (hneq : ∀ j, j + 1 < k → f (j + 1) ≠ f j) :
    ∀ (remaining i : Nat) (last : Int),
      (i = 0 ∧ last = -1 ∨ 1 ≤ i ∧ i ≤ k ∧ last = (f (i - 1) : Nat)) →
      k < i + remaining →
      wait_loop stat i last remaining = .ok false := by
  intro remaining
  induction remaining with
  | zero =>
    intro i last hinv hbudget
    rcases hinv with ⟨rfl, _⟩ | ⟨_, hik, _⟩ <;> omega
  | succ r ih =>
    intro i last hinv hbudget
    by_cases hik : i = k
    · subst hik
      rw [wait_loop]
      simp only [hnf]
    · have hiklt : i < k := by
        rcases hinv with ⟨rfl, _⟩ | ⟨_, hik2, _⟩ <;> omega
      rw [wait_loop]
      simp only [hstat i hiklt]
      have hne : ¬((f i : Int) = last) := by
        rcases hinv with ⟨_, hlast⟩ | ⟨hi1, _, hlast⟩
        · rw [hlast]; omega
        · obtain ⟨m, rfl⟩ : ∃ m, i = m + 1 := ⟨i - 1, by omega⟩
          rw [hlast]
          have e2 : m + 1 - 1 = m := by omega
          rw [e2]
          have : f (m + 1) ≠ f m := hneq m (by omega)
          intro hc
          exact this (by exact_mod_cast hc)
      rw [if_neg hne]
      apply ih (i + 1)
      · right
        refine ⟨by omega, by omega, ?_⟩
        simp
      · omega

/-- C8: if the path disappears (stat raises FileNotFoundError) at some poll
the loop reaches, wait_for_stable_file returns false, and it does so
immediately — the answer does not depend on any stat observation after the
poll that raised. -/
theorem wait_for_stable_file_vanished (stat : Nat → Except PyError Nat)
    (f : Nat → Nat) (k timeout : Nat)
    (hstat : ∀ j, j < k → stat j = .ok (f j))
    (hnf : stat k = .error .fileNotFoundError)
    (hneq : ∀ j, j + 1 < k → f (j + 1) ≠ f j)
    (hk : k < timeout) :
    wait_for_stable_file stat timeout = .ok false ∧
    ∀ stat2 : Nat → Except PyError Nat, (∀ j, j ≤ k → stat2 j = stat j) →
      wait_for_stable_file stat2 timeout = .ok false := by
  have main : ∀ stat2 : Nat → Except PyError Nat,
      (∀ j, j ≤ k → stat2 j = stat j) →
      wait_for_stable_file stat2 timeout = .ok false := by
    intro stat2 hagree
    apply wait_loop_not_found stat2 f k
    · intro j hj
      rw [hagree j (by omega)]
      exact hstat j hj
    · rw [hagree k le_rfl]; exact hnf
    · exact hneq
    · left; exact ⟨rfl, rfl⟩
    · omega
  exact ⟨main stat (fun _ _ => rfl), main⟩

/-- A closed instance of C8: a file whose size is seen as 5 then 7 and which
then vanishes is reported unstable within the default timeout. -/
theorem wait_for_stable_file_vanished_witness :
    wait_for_stable_file vanishStat 60 = .ok false :=
  (wait_for_stable_file_vanished vanishStat
      (fun j => if j = 0 then 5 else 7) 2 60
      (by intro j hj; interval_cases j <;> rfl)
      rfl
      (by intro j hj
          obtain rfl : j = 0 := by omega
          simp)
      (by omega)).1

/-- C1 (evaluation of the code at the failing input): with no bucket
configured and a file stable at 100 bytes, upload_file_to_s3 does not skip.
It issues the destination upload call (uploadCalls = 1) with the None
bucket — which boto3's client-side parameter validation rejects — so the
exception handler fires: the trace records the 60-second backoff sleep and
the failure outcome.  Only the no-delete part of the claim holds, and the
source's UploadOutcome has no skip path at all. -/
theorem upload_no_bucket_attempts_and_backs_off :
    upload_file_to_s3 none none pathA stdWorld =
      .ok ⟨1, 60, false, .failed⟩ := rfl

/-- C3 (counterexample): a stat failure other than FileNotFoundError raised
during the stability wait escapes upload_file_to_s3 as an uncaught
exception, so the claim that no exception ever escapes the upload
transition entry point is false. -/
theorem upload_exception_escapes :
    upload_file_to_s3 (some "logs") none pathA permWorld =
      .error .permissionError := rfl

/-- C3 (amended): the only exceptions that escape upload_file_to_s3 are
those propagated by wait_for_stable_file (a stat failure other than
FileNotFoundError); every exception raised inside the try-block — client
construction, open, streaming upload, delete — is caught and handled
locally, for every behaviour of the filesystem and the destination store. -/
theorem upload_errors_only_from_wait (bucket hostname : Option String)
    (filename : PyPath) (w : S3World) (e : PyError)
    (h : upload_file_to_s3 bucket hostname filename w = .error e) :
    wait_for_stable_file w.stat 60 = .error e := by
  rw [upload_file_to_s3] at h
  cases hwait : wait_for_stable_file w.stat 60 with
  | error e2 =>
    simp only [hwait] at h
    injection h with h2
    rw [h2]
  | ok b =>
    exfalso
    simp only [hwait] at h
    cases b
    · exact Except.noConfusion h
    · cases hc1 : w.client1 with
      | error e1 => simp only [hc1] at h; exact Except.noConfusion h
      | ok u =>
        simp only [hc1] at h
        cases hc2 : w.client2 with
        | error e1 => simp only [hc2] at h; exact Except.noConfusion h
        | ok u =>
          simp only [hc2] at h
          cases hop : w.openFile with
          | error e1 => simp only [hop] at h; exact Except.noConfusion h
          | ok u =>
            simp only [hop] at h
            cases hup : w.uploadFileobj bucket
                (get_s3_object_key (some filename) hostname w.now w.uuidTok) with
            | error e1 => simp only [hup] at h; exact Except.noConfusion h
            | ok u =>
              simp only [hup] at h
              cases hun : w.unlink with
              | error e1 => simp only [hun] at h; exact Except.noConfusion h
              | ok u => simp only [hun] at h; exact Except.noConfusion h

/-- A closed instance of C3's amended theorem, at a world whose stat raises
PermissionError: the escaped exception is exactly the one the stability
wait propagates. -/
theorem upload_errors_only_from_wait_witness :
    wait_for_stable_file permWorld.stat 60 = .error .permissionError :=
  upload_errors_only_from_wait (some "logs") none pathB permWorld
    .permissionError rfl

/-- C4: for every upload attempt on a stabilized file, local deletion
happens strictly after confirmed upload success and only then: the upload
call is issued at most once (never retried within the call), a deleted file
implies the upload call succeeded with outcome success, a failing open or a
failing destination call leaves the file undeleted, and when client
construction, open, upload and delete all succeed the file is deleted. -/
theorem upload_then_delete_ordering (bucket hostname : Option String)
    (filename : PyPath) (w : S3World) (t : UploadTrace)
    (hres : upload_file_to_s3 bucket hostname filename w = .ok t)
    (hstable : wait_for_stable_file w.stat 60 = .ok true) :
    t.uploadCalls ≤ 1 ∧
    (t.deleted = true →
      w.uploadFileobj bucket
          (get_s3_object_key (some filename) hostname w.now w.uuidTok)
        = .ok () ∧ t.outcome = .success) ∧
    (w.openFile ≠ .ok () → t.deleted = false) ∧
    (w.uploadFileobj bucket
        (get_s3_object_key (some filename) hostname w.now w.uuidTok)
      ≠ .ok () → t.deleted = false) ∧
    (w.client1 = .ok () → w.client2 = .ok () → w.openFile = .ok () →
      w.uploadFileobj bucket
          (get_s3_object_key (some filename) hostname w.now w.uuidTok)
        = .ok () →
      w.unlink = .ok () → t.deleted = true ∧ t.uploadCalls = 1) := by
  rw [upload_file_to_s3] at hres
  simp only [hstable] at hres
  cases hc1 : w.client1 with
  | error e1 =>
    simp only [hc1] at hres
    injection hres with h2
    subst h2
    simp_all
  | ok u =>
    cases u
    simp only [hc1] at hres
    cases hc2 : w.client2 with
    | error e1 =>
      simp only [hc2] at hres
      injection hres with h2
      subst h2
      simp_all
    | ok u =>
      cases u
      simp only [hc2] at hres
      cases hop : w.openFile with
      | error e1 =>
        simp only [hop] at hres
        injection hres with h2
        subst h2
        simp_all
      | ok u =>
        cases u
        simp only [hop] at hres
        cases hup : w.uploadFileobj bucket
            (get_s3_object_key (some filename) hostname w.now w.uuidTok) with
        | error e1 =>
          simp only [hup] at hres
          injection hres with h2
          subst h2
          simp_all
        | ok u =>
          cases u
          simp only [hup] at hres
          cases hun : w.unlink with
          | error e1 =>
            simp only [hun] at hres
            injection hres with h2
            subst h2
            simp_all
          | ok u =>
            cases u
            simp only [hun] at hres
            injection hres with h2
            subst h2
            simp_all

/-- A closed instance of C4 at a well-behaved world: the stable 100-byte
file is uploaded once and then deleted. -/
theorem upload_then_delete_ordering_witness :
    upload_file_to_s3 (some "logs") none pathC stdWorld =
      .ok ⟨1, 0, true, .success⟩ ∧
    (⟨1, 0, true, .success⟩ : UploadTrace).uploadCalls ≤ 1 ∧
    (⟨1, 0, true, .success⟩ : UploadTrace).deleted = true :=
  ⟨rfl,
   (upload_then_delete_ordering (some "logs") none pathC stdWorld
      ⟨1, 0, true, .success⟩ rfl rfl).1,
   ((upload_then_delete_ordering (some "logs") none pathC stdWorld
      ⟨1, 0, true, .success⟩ rfl rfl).2.2.2.2 rfl rfl rfl rfl rfl).1⟩

/-- The four traces upload_file_to_s3 can return: the early not-stable
return, the pre-upload failure, the post-upload failure, and the success
path. -/
theorem upload_possible_traces (bucket hostname : Option String)
    (filename : PyPath) (w : S3World) (t : UploadTrace)
    (hres : upload_file_to_s3 bucket hostname filename w = .ok t) :
    t = ⟨0, 0, false, .notStable⟩ ∨
    t = ⟨0, EXCEPTION_DELAY_SECONDS, false, .failed⟩ ∨
    t = ⟨1, EXCEPTION_DELAY_SECONDS, false, .failed⟩ ∨
    t = ⟨1, 0, true, .success⟩ := by
  rw [upload_file_to_s3] at hres
  cases hwait : wait_for_stable_file w.stat 60 with
  | error e => simp [hwait] at hres
  | ok b =>
    cases b
    · simp only [hwait] at hres
      injection hres with h2
      subst h2
      simp
    · simp only [hwait] at hres
      cases hc1 : w.client1 with
      | error e1 =>
        simp only [hc1] at hres
        injection hres with h2
        subst h2
        simp
      | ok u =>
        simp only [hc1] at hres
        cases hc2 : w.client2 with
        | error e1 =>
          simp only [hc2] at hres
          injection hres with h2
          subst h2
          simp
        | ok u =>
          simp only [hc2] at hres
          cases hop : w.openFile with
          | error e1 =>
            simp only [hop] at hres
            injection hres with h2
            subst h2
            simp
          | ok u =>
            simp only [hop] at hres
            cases hup : w.uploadFileobj bucket
                (get_s3_object_key (some filename) hostname w.now w.uuidTok) with
            | error e1 =>
              simp only [hup] at hres
              injection hres with h2
              subst h2
              simp
            | ok u =>
              simp only [hup] at hres
              cases hun : w.unlink with
              | error e1 =>
                simp only [hun] at hres
                injection hres with h2
                subst h2
                simp
              | ok u =>
                simp only [hun] at hres
                injection hres with h2
                subst h2
                simp

/-- C9: whenever upload_file_to_s3 returns (rather than raising), the
failure path has slept exactly the fixed EXCEPTION_DELAY_SECONDS = 60
backoff before returning control, and the success and not-stable paths have
slept nothing. -/
theorem failure_backoff_fixed (bucket hostname : Option String)
    (filename : PyPath) (w : S3World) (t : UploadTrace)
    (hres : upload_file_to_s3 bucket hostname filename w = .ok t) :
    (t.outcome = .failed →
      t.sleptSeconds = EXCEPTION_DELAY_SECONDS ∧ t.sleptSeconds = 60) ∧
    (t.outcome = .success → t.sleptSeconds = 0) ∧
    (t.outcome = .notStable → t.sleptSeconds = 0) := by
  rcases upload_possible_traces bucket hostname filename w t hres with
    rfl | rfl | rfl | rfl <;> simp [EXCEPTION_DELAY_SECONDS]

/-- A closed instance of C9 at a world whose destination store is down: the
trace of the failed upload records the 60-second backoff. -/
theorem failure_backoff_fixed_witness :
    upload_file_to_s3 (some "logs") none pathA uploadFailWorld =
      .ok ⟨1, 60, false, .failed⟩ ∧
    (⟨1, 60, false, .failed⟩ : UploadTrace).sleptSeconds = 60 :=
  ⟨rfl,
   ((failure_backoff_fixed (some "logs") none pathA uploadFailWorld
      ⟨1, 60, false, .failed⟩ rfl).1 rfl).2⟩

/-- C2: a directory sweep hands exactly the entries that are regular files
to the stability-then-upload pipeline — each exactly once, in order, so a
directory with n regular files yields exactly n upload attempts — provided
no pipeline invocation raises an uncaught exception (see C3: with a normal
filesystem none does). -/
theorem sweep_processes_each_regular_file (bucket hostname : Option String)
    (entries : List PyPath) (isFile : PyPath → Bool)
    (worldOf : PyPath → S3World)
    (h : ∀ e ∈ entries, isFile e = true →
      ∀ err, upload_file_to_s3 bucket hostname e (worldOf e) ≠ .error err) :
    ∃ ts, upload_directory_to_s3 bucket hostname entries isFile worldOf
        = .ok ts ∧
      ts.map Prod.fst = entries.filter (fun e => isFile e) ∧
      ts.length = (entries.filter (fun e => isFile e)).length := by
  induction entries with
  | nil => exact ⟨[], rfl, rfl, rfl⟩
  | cons e rest ih =>
    obtain ⟨ts, hts, hmap, hlen⟩ :=
      ih (fun x hx hf err => h x (List.mem_cons_of_mem e hx) hf err)
    by_cases hf : isFile e = true
    · cases hu : upload_file_to_s3 bucket hostname e (worldOf e) with
      | error err => exact absurd hu (h e (List.mem_cons_self e rest) hf err)
      | ok t =>
        refine ⟨(e, t) :: ts, ?_, ?_, ?_⟩
        · rw [upload_directory_to_s3, if_pos hf]
          simp only [hu, hts]
        · simp only [List.map_cons, List.filter_cons_of_pos hf, hmap]
        · simp only [List.length_cons, List.filter_cons_of_pos hf,
            List.length_cons, hlen]
    · have hf2 : ¬(isFile e = true) := hf
      refine ⟨ts, ?_, ?_, ?_⟩
      · rw [upload_directory_to_s3, if_neg hf2]
        exact hts
      · rw [List.filter_cons_of_neg (by simpa using hf2)]
        exact hmap
      · rw [List.filter_cons_of_neg (by simpa using hf2)]
        exact hlen

/-- A closed instance of C2: a directory with the three stable regular
files a.log, b.log, c.log yields exactly those three upload attempts. -/
theorem sweep_processes_each_regular_file_witness :
    ∃ ts, upload_directory_to_s3 (some "logs") none [pathA, pathB, pathC]
        (fun _ => true) (fun _ => stdWorld) = .ok ts ∧
      ts.map Prod.fst = ([pathA, pathB, pathC].filter (fun _ => true)) ∧
      ts.length = ([pathA, pathB, pathC].filter (fun _ => true)).length :=
  sweep_processes_each_regular_file (some "logs") none [pathA, pathB, pathC]
    (fun _ => true) (fun _ => stdWorld)
    (by
      intro e he hf err
      fin_cases he <;> exact fun hc => nomatch hc)

end S3Pusher
